import Mathlib

/-!
# Verification of the IGCN complex Gabor-modulated convolution core

Shallow embedding of the complex-tensor algebra (`igcn/cmplx.py`) and the
Gabor-modulated convolution modules (`igcn/cmplx_modules.py`), with theorems
settling the specified properties against the code.

Conventions:
* A complex tensor is modelled as its pair of components (the leading
  stacking axis of size 2 in the code becomes a pair, or a `Fin 2` index
  where the code manipulates that axis itself).
* Real scalars are `ℚ` where the operations are rational (convolution,
  ReLU, pooling arithmetic) and `ℝ` where the code takes square roots
  (`magnitude` and everything built on it).
* Host-framework primitives (PyTorch) that the code merely calls are
  either embedded concretely from their documented semantics (`conv2d`,
  `conv_transpose2d`, window pooling, fan-in/fan-out) or taken as function
  parameters where only their interface matters (the index-returning mode
  of `F.max_pool2d`, the Gabor kernel generator `gabor_cmplx` whose source
  file `igcn/igabor.py` is outside the embedded core).
-/

namespace IGCN

/-! ## C1: `IGaborCmplx` filter-cache state machine (cmplx_modules.py:24-68)

`IGaborCmplx` owns the Gabor parameter tensor, a cached filter-bank buffer
and the boolean flag `calc_filters`.  `calc_filters = true` is the spec's
`Stale` state, `false` is `Valid`.  The generator `gabor_cmplx`
(`igcn/igabor.py`, a pure function of the parameters per the spec) is a
parameter `gen`; the broadcast modulation `gabor_filters * x.unsqueeze(1)`
followed by the channel-flattening view is a parameter `modulate`. -/

structure IGaborCmplxState (P F : Type) where
  gabor_params : P
  gabor_filters : F
  calc_filters : Bool

namespace IGaborCmplx

/-- `IGaborCmplx.__init__`: the buffer starts as an arbitrary uninitialised
tensor `f0` and `self.calc_filters = True` (Stale). -/
def init {P F : Type} (p : P) (f0 : F) : IGaborCmplxState P F :=
  { gabor_params := p, gabor_filters := f0, calc_filters := true }

/-- `IGaborCmplx.generate_gabor_filters`: recompute the bank from the current
parameters, cache it, and clear the flag (Valid). -/
def generate_gabor_filters {P F : Type} (gen : P → F) (s : IGaborCmplxState P F) :
    IGaborCmplxState P F :=
  { s with gabor_filters := gen s.gabor_params, calc_filters := false }

/-- `IGaborCmplx.forward`: regenerate the bank iff the flag is set, then
modulate the incoming weight `w` with the cached bank. -/
def forward {P F W E : Type} (gen : P → F) (modulate : F → W → E)
    (s : IGaborCmplxState P F) (w : W) : E × IGaborCmplxState P F :=
  let s' := if s.calc_filters then generate_gabor_filters gen s else s
  (modulate s'.gabor_filters w, s')

/-- `IGaborCmplx.set_filter_calc`: the backward hook registered in
`__init__`; it only sets the flag (Stale). -/
def set_filter_calc {P F : Type} (s : IGaborCmplxState P F) : IGaborCmplxState P F :=
  { s with calc_filters := true }

/-- An optimizer step writing new values into `gabor_params` (`.data`
mutation from outside the module); touches nothing else. -/
def set_params {P F : Type} (s : IGaborCmplxState P F) (p : P) : IGaborCmplxState P F :=
  { s with gabor_params := p }

end IGaborCmplx

/-! ## C2: `IGConvCmplx.__init__` construction contract (cmplx_modules.py:88-99) -/

/-- The construction-time configuration retained by `IGConvCmplx.__init__`:
the channel count handed to `ReConv`/`ImConv` (after the integer division in
the no-pooling branch), the filter count, and the pooling mode. -/
structure IGConvCmplxCfg where
  input_features : Nat
  conv_output_features : Nat
  no_g : Nat
  gabor_pooling : Option String
  deriving Repr, DecidableEq

namespace IGConvCmplx

/-- `IGConvCmplx.__init__`: when `gabor_pooling is None`, raise `ValueError`
unless `no_g` divides `output_features`, else divide the channel count by
`no_g`; with a pooling mode configured the channel count is kept as given. -/
def init (input_features output_features no_g : Nat)
    (gabor_pooling : Option String) : Except String IGConvCmplxCfg :=
  match gabor_pooling with
  | none =>
      if output_features % no_g ≠ 0 then
        Except.error "Number of filters does not divide output features"
      else
        Except.ok ⟨input_features, output_features / no_g, no_g, none⟩
  | some gp => Except.ok ⟨input_features, output_features, no_g, some gp⟩

end IGConvCmplx

/-! ## C3: `conv_cmplx` (cmplx.py:47-60)

A (per-sample) feature map is `Tmap : channel → row → col → ℚ`; a kernel
bank is `Tker : out_channel → in_channel → row → col → ℚ`.  `F.conv2d` and
`F.conv_transpose2d` (stride 1, no padding, the defaults the code forwards
when `conv_kwargs` is empty) are embedded from their documented semantics;
`conv_cmplx` is embedded from the source on top of them. -/

/-- A real feature map: channel, row, column. -/
def Tmap : Type := Nat → Nat → Nat → ℚ

/-- A real kernel bank: output channel, input channel, kernel row, column. -/
def Tker : Type := Nat → Nat → Nat → Nat → ℚ

/-- Host primitive `F.conv2d` (cross-correlation, stride 1, no padding):
`out[co,i,j] = Σ_c Σ_u Σ_v x[c,i+u,j+v] · w[co,c,u,v]`
over `cin` input channels and a `kh × kw` kernel. -/
def conv2d (cin kh kw : Nat) (x : Tmap) (w : Tker) : Tmap :=
  fun co i j =>
    ∑ c ∈ Finset.range cin, ∑ u ∈ Finset.range kh, ∑ v ∈ Finset.range kw,
      x c (i + u) (j + v) * w co c u v

/-- Host primitive `F.conv_transpose2d` (stride 1, no padding): the weight
is laid out `[in_channel, out_channel, kh, kw]`, and
`out[co,i,j] = Σ_c Σ_{p,q} x[c,p,q] · w[c,co,i-p,j-q]` over the valid
kernel offsets, with the input spatial extent `H × W`. -/
def conv_transpose2d (cin H W kh kw : Nat) (x : Tmap) (w : Tker) : Tmap :=
  fun co i j =>
    ∑ c ∈ Finset.range cin, ∑ p ∈ Finset.range H, ∑ q ∈ Finset.range W,
      if p ≤ i ∧ i < p + kh ∧ q ≤ j ∧ j < q + kw then
        x c p q * w c co (i - p) (j - q)
      else 0

/-- `w.transpose(1, 2)` on the stacked weight `[2, out, in, kh, kw]`, seen
on one component: swap the out/in channel axes. -/
def weight_transpose (w : Tker) : Tker := fun a b u v => w b a u v

/-- Pointwise difference of feature maps. -/
def tsub (a b : Tmap) : Tmap := fun c i j => a c i j - b c i j

/-- Pointwise sum of feature maps. -/
def tadd (a b : Tmap) : Tmap := fun c i j => a c i j + b c i j

/-- `conv_cmplx` (cmplx.py:47-60): pick `F.conv2d`, or on `transpose`
rebind to `F.conv_transpose2d` and replace `w` by `w.transpose(1, 2)`; then
stack `conv(x0,w0) - conv(x1,w1)` and `conv(x0,w1) + conv(x1,w0)`. -/
def conv_cmplx (cin H W kh kw : Nat) (x0 x1 : Tmap) (w0 w1 : Tker)
    (transpose : Bool) : Tmap × Tmap :=
  let conv : Tmap → Tker → Tmap :=
    if transpose then conv_transpose2d cin H W kh kw else conv2d cin kh kw
  let w0' := if transpose then weight_transpose w0 else w0
  let w1' := if transpose then weight_transpose w1 else w1
  (tsub (conv x0 w0') (conv x1 w1'), tadd (conv x0 w1') (conv x1 w0'))

/-- The spec's direct four-real-convolution formula: real part
`conv(re_x,re_w) − conv(im_x,im_w)`, imaginary part
`conv(re_x,im_w) + conv(im_x,re_w)`; in transposed mode the transposed
primitive is used and the weight's in/out axes are swapped. -/
def conv_cmplx_spec (cin H W kh kw : Nat) (x0 x1 : Tmap) (w0 w1 : Tker)
    (transpose : Bool) : Tmap × Tmap :=
  match transpose with
  | false =>
      (tsub (conv2d cin kh kw x0 w0) (conv2d cin kh kw x1 w1),
       tadd (conv2d cin kh kw x0 w1) (conv2d cin kh kw x1 w0))
  | true =>
      (tsub (conv_transpose2d cin H W kh kw x0 (weight_transpose w0))
            (conv_transpose2d cin H W kh kw x1 (weight_transpose w1)),
       tadd (conv_transpose2d cin H W kh kw x0 (weight_transpose w1))
            (conv_transpose2d cin H W kh kw x1 (weight_transpose w0)))

/-! ## C4: channel bookkeeping of the orientation axis
(cmplx_modules.py:48-57 and 117-133)

`IGaborCmplx.forward` builds `gabor_filters * x.unsqueeze(1)` of shape
`[2, no_g, out, in, kh, kw]` and flattens the `(no_g, out)` axes with
`out.view(2, -1, *out.size()[3:])`; `IGConvCmplx.forward` later splits the
channel axis of the convolution output with
`out.view(2, b, ew_channels // no_g, no_g, h, w)`.  Both are row-major
views of contiguous tensors, embedded as index arithmetic. -/

/-- Row-major merge of two leading axes into one (`view(2, -1, ...)` on a
contiguous `[d1, d2, ...]` block): flat index `c` addresses `(c / d2, c % d2)`. -/
def view_merge2 {α : Type} (d2 : Nat) (t : Nat → Nat → α) : Nat → α :=
  fun c => t (c / d2) (c % d2)

/-- Row-major split of one axis into two (`view(..., d1, d2, ...)`):
position `(a, b)` addresses flat index `a * d2 + b`. -/
def view_split2 {α : Type} (d2 : Nat) (t : Nat → α) : Nat → Nat → α :=
  fun a b => t (a * d2 + b)

/-! ## C5: orientation-axis elementwise pooling
(cmplx_modules.py:106-115 and 117-144)

`__init__` binds `gabor_pooling = torch.max` (mode `'max'`) or `torch.mean`
(mode `'avg'`); `forward` then executes
`pool_out, max_idxs = self.gabor_pooling(pool_out, dim=3)` on the reshaped
`[2, batch, out_f, no_g, h, w]` tensor and returns `pool_out`.
`torch.max(·, dim=3)` yields a `(values, indices)` pair, so the unpacking
is the ordinary tuple unpacking; `torch.mean(·, dim=3)` yields a single
tensor of shape `[2, batch, out_f, h, w]`, and Python unpacking of a tensor
iterates its leading axis — `pool_out` becomes slice `[0]` and `max_idxs`
slice `[1]`. -/

/-- 6-d pooling input: component, batch, group channel, orientation, h, w. -/
def T6 : Type := Fin 2 → Nat → Nat → Nat → Nat → Nat → ℚ

/-- 5-d complex map: component, batch, group channel, h, w. -/
def T5 : Type := Fin 2 → Nat → Nat → Nat → Nat → ℚ

/-- 4-d real map: batch, group channel, h, w. -/
def T4 : Type := Nat → Nat → Nat → Nat → ℚ

/-- Maximum of `f` over `0, ..., n-1` (with `f 0` as the fold seed, as the
reduction is only invoked on a nonempty axis). -/
def qmax_range (n : Nat) (f : Nat → ℚ) : ℚ :=
  (List.range n).foldl (fun a g => max a (f g)) (f 0)

/-- First index attaining the maximum of `f` over `0, ..., n-1`. -/
def qargmax_range (n : Nat) (f : Nat → ℚ) : Nat :=
  (List.range n).foldl (fun a g => if f a < f g then g else a) 0

/-- Host primitive `torch.max(t, dim=3)` on a `[2, b, o, g, h, w]` tensor
with orientation extent `n`: values and arg-max indices over axis 3,
computed for every remaining index (the component axis included). -/
def torch_max_dim3 (n : Nat) (t : T6) :
    T5 × (Fin 2 → Nat → Nat → Nat → Nat → Nat) :=
  (fun c b o h w => qmax_range n (fun g => t c b o g h w),
   fun c b o h w => qargmax_range n (fun g => t c b o g h w))

/-- Host primitive `torch.mean(t, dim=3)`: one tensor of shape
`[2, b, o, h, w]`, the mean over axis 3. -/
def torch_mean_dim3 (n : Nat) (t : T6) : T5 :=
  fun c b o h w => (∑ g ∈ Finset.range n, t c b o g h w) / n

/-- What `IGConvCmplx.forward` returns after the orientation pooling step:
either a complex (component-indexed) map or — when the unpacking sliced a
plain tensor — a real map with no component axis. -/
inductive CmplxOrReal where
  | cplx (t : T5)
  | real (t : T4)

/-- The `gabor_pooling='max'` step of `IGConvCmplx.forward`:
`pool_out, max_idxs = torch.max(pool_out, dim=3)` unpacks the
`(values, indices)` pair and the values are returned. -/
def IGConv_gabor_pool_max (n : Nat) (t : T6) : CmplxOrReal :=
  CmplxOrReal.cplx (torch_max_dim3 n t).1

/-- The `gabor_pooling='avg'` step of `IGConvCmplx.forward`:
`torch.mean(pool_out, dim=3)` is a single tensor with leading axis of size
2, so `pool_out, max_idxs = ...` binds `pool_out` to its slice `[0]` (the
real component) and `max_idxs` to slice `[1]` (the imaginary component,
discarded); the slice `[0]` is returned. -/
def IGConv_gabor_pool_avg (n : Nat) (t : T6) : CmplxOrReal :=
  let m := torch_mean_dim3 n t
  CmplxOrReal.real (fun b o h w => m 0 b o h w)

/-- Concrete pooling input for the `'avg'` path: along the orientation axis
the real slice is `(1, 3)` and the imaginary slice `(5, 7)`, constant over
the remaining axes. -/
def t_avg_demo : T6 := fun c _ _ g _ _ =>
  if c = 0 then (if g = 0 then 1 else 3) else (if g = 0 then 5 else 7)

/-- Same real slice as `t_avg_demo`, different imaginary slice `(9, 11)`. -/
def t_avg_demo2 : T6 := fun c _ _ g _ _ =>
  if c = 0 then (if g = 0 then 1 else 3) else (if g = 0 then 9 else 11)

/-! ## C7: `magnitude` (cmplx.py:22-30)

`magnitude` is elementwise: `x.pow(2).sum(dim=0)` is `re² + im²` at each
position, `torch.clamp(·, min=eps)` is `max · eps`, then `torch.sqrt`.
Embedded per element over `ℝ`. -/

/-- `magnitude` (the default `sq=False` path):
`sqrt(clamp(re² + im², min=eps))`. -/
noncomputable def magnitude (re im eps : ℝ) : ℝ :=
  Real.sqrt (max (re ^ 2 + im ^ 2) eps)

/-- The `sq=True` branch of `magnitude`: the unclamped square. -/
def magnitude_sq (re im : ℝ) : ℝ := re ^ 2 + im ^ 2

/-- The default `eps=1e-8` of `magnitude`. -/
noncomputable def eps_default : ℝ := 1 / 10 ^ 8

/-! ## C6: `max_mag_pool` (cmplx.py:160-167)

Complex maps are `CMap : component → batch → channel → h → w → ℝ`.  The
index-returning mode of the host primitive `F.max_pool2d(r, kernel_size,
return_indices=True)` is a parameter `maxpool_idx` producing, for each
output window position, the flat spatial index (row-major over the `W`-wide
input, exactly what `gather` on the `flatten(start_dim=3)`-ed tensor
consumes).  `x.flatten(start_dim=3)` and the final `view_as` are the
row-major merge/split of the spatial axes (`view_merge2` / `view_split2`),
with `W` the input width and `OW` the pooled output width. -/

/-- A real 4-d map: batch, channel, h, w. -/
def RMap : Type := Nat → Nat → Nat → Nat → ℝ

/-- An index map: batch, channel, output h, output w ↦ flat spatial index. -/
def IdxMap : Type := Nat → Nat → Nat → Nat → Nat

/-- A complex 5-d map: component, batch, channel, h, w. -/
def CMap : Type := Fin 2 → Nat → Nat → Nat → Nat → ℝ

/-- `max_mag_pool` (cmplx.py:160-167): magnitude, then the arg-max flat
index per window from the real pooling primitive's index-returning mode,
then `cmplx(idxs, idxs)` duplicates that single index for both components
and `gather` reads both flattened components at it. -/
noncomputable def max_mag_pool (maxpool_idx : RMap → IdxMap) (W OW : Nat)
    (x : CMap) : CMap :=
  let r : RMap := fun b c h w => magnitude (x 0 b c h w) (x 1 b c h w) eps_default
  let idxs := maxpool_idx r
  let cmplx_idxs : Fin 2 → IdxMap := fun _ => idxs
  fun s b c =>
    view_split2 OW (fun p =>
      view_merge2 W (x s b c) (view_merge2 OW (cmplx_idxs s b c) p))

/-! ## C8: `relu_cmplx_z` (cmplx.py:97-102)

Both `torch.where` steps are elementwise; the condition `x[0] > 0`
broadcasts over the leading component axis, so the first step gates both
components on the original real part, and the second step's condition reads
the updated imaginary part.  Embedded per element over `ℚ`. -/

/-- `relu_cmplx_z`: `x = where(x[0] > 0, x, 0)` then `x = where(x[1] > 0, x, 0)`
seen at one element position. -/
def relu_cmplx_z (re im : ℚ) : ℚ × ℚ :=
  let x1 : ℚ × ℚ := if 0 < re then (re, im) else (0, 0)
  if 0 < x1.2 then x1 else (0, 0)

/-- The spec's joint gate: the complex value passes unchanged exactly when
both components are strictly positive, and is zeroed entirely otherwise. -/
def relu_z_joint (re im : ℚ) : ℚ × ℚ :=
  if 0 < re ∧ 0 < im then (re, im) else (0, 0)

/-! ## C9: `init_weights` (cmplx.py:188-204)

The random draws (`np.random.rayleigh(scale=sigma, ...)`,
`np.random.uniform(low=-π, high=π, ...)`) are host samplers; the embedding
captures the deterministic glue: the fan computation on the real-part
kernel `w[0]` (torch's `_calculate_fan_in_and_fan_out` on a
`[out, in, kh, kw]` kernel), the scale passed to the Rayleigh sampler, the
bounds passed to the uniform sampler, and the storage transform applied to
the sampled magnitude/phase. -/

/-- Host primitive `init._calculate_fan_in_and_fan_out` on a 4-d kernel
`[out_c, in_c, kh, kw]`: `fan_in = in_c · kh · kw`,
`fan_out = out_c · kh · kw`. -/
def calculate_fan_in_and_fan_out (out_c in_c kh kw : Nat) : Nat × Nat :=
  (in_c * (kh * kw), out_c * (kh * kw))

/-- The `scale` argument `init_weights` passes to `np.random.rayleigh`:
`sigma = 1 / fan_in` for `'he'`, `sigma = 1 / (fan_in + fan_out)` for
`'glorot'`; any other mode leaves `sigma` unbound (`none`). -/
def rayleigh_scale (mode : String) (fan_in fan_out : Nat) : Option ℚ :=
  if mode = "he" then some (1 / (fan_in : ℚ))
  else if mode = "glorot" then some (1 / ((fan_in : ℚ) + (fan_out : ℚ)))
  else none

/-- The `low` bound passed to `np.random.uniform` for the phase. -/
noncomputable def phase_low : ℝ := -Real.pi

/-- The `high` bound passed to `np.random.uniform` for the phase. -/
noncomputable def phase_high : ℝ := Real.pi

/-- The storage transform of `init_weights` applied to one sampled
(magnitude, phase) element: polar stores the pair as-is, cartesian stores
`(mag · cos phase, mag · sin phase)`. -/
noncomputable def init_weights_store (polar : Bool) (mag phase : ℝ) : ℝ × ℝ :=
  if polar then (mag, phase) else (mag * Real.cos phase, mag * Real.sin phase)

/-! ## C10: `pool_cmplx` dispatch (cmplx.py:138-157) and `MaxPoolCmplx`
(cmplx_modules.py:222-232)

The spatial value-pooling primitives `F.max_pool2d` / `F.avg_pool2d`
(kernel `k`, default stride = kernel) are embedded from their documented
semantics on non-overlapping `k × k` windows.  `pool_cmplx`'s `operator`
argument is a Python string or `None` (`MaxPoolCmplx` passes `None` when
`maxmag=False`), modelled as `Option String`; `None == 'mag'` is false in
Python, matching the `Option` comparison.  The `_compress_shape` /
`_recover_shape` bracket comes from `igcn/utils.py`, which is outside the
embedded sources; on the standard rank-5 complex input of the spec's
forward contract it is the identity and is embedded as such. -/

/-- Host primitive `F.max_pool2d` with kernel `k` (stride `k`): maximum of
each non-overlapping `k × k` window. -/
noncomputable def window_max (k : Nat) (t : Nat → Nat → ℝ) : Nat → Nat → ℝ :=
  fun i j =>
    (List.range k).foldl (fun a u =>
      (List.range k).foldl (fun a2 v => max a2 (t (i * k + u) (j * k + v))) a)
      (t (i * k) (j * k))

/-- Host primitive `F.avg_pool2d` with kernel `k` (stride `k`): mean of
each non-overlapping `k × k` window. -/
noncomputable def window_avg (k : Nat) (t : Nat → Nat → ℝ) : Nat → Nat → ℝ :=
  fun i j =>
    (∑ u ∈ Finset.range k, ∑ v ∈ Finset.range k, t (i * k + u) (j * k + v))
      / ((k * k : Nat) : ℝ)

/-- `pool_cmplx` (cmplx.py:138-157): `pool` starts as `F.max_pool2d`, is
rebound to `F.avg_pool2d` when the operator is `'avg'`/`'average'`; the
`'mag'` operator alone dispatches to `max_mag_pool`, every other operator
applies `pool` to the real and imaginary parts independently. -/
noncomputable def pool_cmplx (maxpool_idx : RMap → IdxMap) (W OW : Nat)
    (x : CMap) (k : Nat) (operator : Option String) : CMap :=
  if operator = some "mag" then
    max_mag_pool maxpool_idx W OW x
  else
    let pool : (Nat → Nat → ℝ) → Nat → Nat → ℝ :=
      if operator = some "avg" ∨ operator = some "average" then window_avg k
      else window_max k
    fun s b c => pool (x s b c)

/-- `MaxPoolCmplx.__init__`: `self.operator = 'maxmag' if maxmag else None`
(with `maxmag=True` the default). -/
def MaxPoolCmplx_operator (maxmag : Bool) : Option String :=
  if maxmag then some "maxmag" else none

/-- `MaxPoolCmplx.forward`: `pool_cmplx(x, kernel_size, operator=self.operator)`. -/
noncomputable def MaxPoolCmplx_forward (maxpool_idx : RMap → IdxMap) (W OW : Nat)
    (maxmag : Bool) (k : Nat) (x : CMap) : CMap :=
  pool_cmplx maxpool_idx W OW x k (MaxPoolCmplx_operator maxmag)

/-- A constant index map, standing in for the host pooling primitive in
closed witnesses. -/
def idx_const0 : RMap → IdxMap := fun _ _ _ _ _ => 0

/-- The all-zero complex map, a concrete witness input. -/
def xzero : CMap := fun _ _ _ _ _ => 0

end IGCN

/-! ## Theorems -/

namespace IGCN

/-- C1: the filter-cache flag is Stale (`calc_filters = true`) at
construction; a forward call leaves it Valid (`false`); the backward hook is
the only operation that resets it to Stale and it touches nothing else;
parameter writes preserve the flag; two consecutive forward calls without an
intervening gradient computation are literally equal (same `EnhancedWeight`,
same state — the cached bank is reused); and a forward immediately after the
backward hook (with any parameter write in between) regenerates the bank
from the current parameters. -/
theorem IGaborCmplx_cache_lifecycle {P F W E : Type}
    (gen : P → F) (modulate : F → W → E) :
    (∀ (p : P) (f0 : F), (IGaborCmplx.init p f0).calc_filters = true)
    ∧ (∀ (s : IGaborCmplxState P F) (w : W),
        ((IGaborCmplx.forward gen modulate s w).2).calc_filters = false)
    ∧ (∀ s : IGaborCmplxState P F,
        (IGaborCmplx.set_filter_calc s).calc_filters = true
        ∧ (IGaborCmplx.set_filter_calc s).gabor_filters = s.gabor_filters
        ∧ (IGaborCmplx.set_filter_calc s).gabor_params = s.gabor_params)
    ∧ (∀ (s : IGaborCmplxState P F) (p : P),
        (IGaborCmplx.set_params s p).calc_filters = s.calc_filters)
    ∧ (∀ (s : IGaborCmplxState P F) (w : W),
        IGaborCmplx.forward gen modulate (IGaborCmplx.forward gen modulate s w).2 w
          = IGaborCmplx.forward gen modulate s w)
    ∧ (∀ (s : IGaborCmplxState P F) (p : P) (w : W),
        (IGaborCmplx.forward gen modulate
            (IGaborCmplx.set_params (IGaborCmplx.set_filter_calc s) p) w).1
          = modulate (gen p) w) := by
  refine ⟨fun p f0 => rfl, fun s w => ?_, fun s => ⟨rfl, rfl, rfl⟩,
    fun s p => rfl, fun s w => ?_, fun s p w => rfl⟩
  · by_cases h : s.calc_filters <;>
      simp [IGaborCmplx.forward, IGaborCmplx.generate_gabor_filters, h]
  · by_cases h : s.calc_filters <;>
      simp [IGaborCmplx.forward, IGaborCmplx.generate_gabor_filters, h]

/-- C2: with no orientation pooling configured, construction fails if and
only if `no_g` does not divide `output_features`; on success each
orientation gets `output_features / no_g` raw channels; in particular
`output_features=10, no_g=4` raises while `output_features=12, no_g=4`
succeeds with 3 channels per orientation. -/
theorem IGConvCmplx_init_divisibility (input_features output_features no_g : Nat)
    (hg : 0 < no_g) :
    ((∃ e, IGConvCmplx.init input_features output_features no_g none
        = Except.error e) ↔ ¬ (no_g ∣ output_features))
    ∧ (no_g ∣ output_features →
        IGConvCmplx.init input_features output_features no_g none
          = Except.ok ⟨input_features, output_features / no_g, no_g, none⟩)
    ∧ (∃ e, IGConvCmplx.init 1 10 4 none = Except.error e)
    ∧ IGConvCmplx.init 1 12 4 none = Except.ok ⟨1, 3, 4, none⟩ := by
  refine ⟨?_, ?_, ⟨_, rfl⟩, rfl⟩
  · constructor
    · rintro ⟨e, he⟩ hdvd
      rw [Nat.dvd_iff_mod_eq_zero] at hdvd
      simp [IGConvCmplx.init, hdvd] at he
    · intro hdvd
      rw [Nat.dvd_iff_mod_eq_zero] at hdvd
      exact ⟨"Number of filters does not divide output features",
        by simp [IGConvCmplx.init, hdvd]⟩
  · intro hdvd
    rw [Nat.dvd_iff_mod_eq_zero] at hdvd
    simp [IGConvCmplx.init, hdvd]

/-- C3: for every input and weight, `conv_cmplx` equals the direct
four-real-convolution formula of the complex-multiplication identity, in
both plain and transposed modes; the transposed mode uses the
transposed-convolution primitive with the weight's in/out axes swapped. -/
theorem conv_cmplx_eq_four_real_convs (cin H W kh kw : Nat)
    (x0 x1 : Tmap) (w0 w1 : Tker) (transpose : Bool) :
    conv_cmplx cin H W kh kw x0 x1 w0 w1 transpose
      = conv_cmplx_spec cin H W kh kw x0 x1 w0 w1 transpose := by
  cases transpose <;> rfl

/-- C4: `IGaborCmplx.forward` flattens the enhanced weight's `(no_g, out)`
axes row-major (channel `c = g·out_f + o`), but `IGConvCmplx.forward`
splits the channel axis as `[out_f, no_g]` (position `(o, g)` reads channel
`o·no_g + g`); the reshaped entry at `(o, g)` is therefore the channel of
Gabor filter `(o·no_g + g) / out_f` modulating base channel
`(o·no_g + g) % out_f` — not, as the spec states, filter `g` and base `o`.
Concretely, with `out_f = no_g = 2` and the enhanced weight tagged
`(filter, base)`, the entry at `(o, g) = (0, 1)` is the channel of filter 0
/ base 1, whereas the claim requires filter 1 / base 0. -/
theorem gabor_axis_reshape_mismatch :
    (∀ (E : Type) (EW : Nat → Nat → E) (out_f no_g o g : Nat),
      view_split2 no_g (view_merge2 out_f EW) o g
        = EW ((o * no_g + g) / out_f) ((o * no_g + g) % out_f))
    ∧ view_split2 2 (view_merge2 2 (fun g o => (g, o))) 0 1 = (0, 1)
    ∧ ((0, 1) : Nat × Nat) ≠ (1, 0) := by
  exact ⟨fun E EW out_f no_g o g => rfl, rfl, by decide⟩

/-- C5: the `'max'` orientation pooling is the per-component maximum over
the orientation axis as claimed, but the `'avg'` path returns only the
real-component mean: `torch.mean` yields a single tensor whose leading
complex axis the tuple-unpacking iterates, binding the imaginary slice to
the discarded `max_idxs`.  On `t_avg_demo` (real slice `(1, 3)`, imaginary
slice `(5, 7)`) the code returns the real map constantly 2 instead of a
complex pair `(2, 6)`, and the output is insensitive to the imaginary
component. -/
theorem gabor_pool_avg_drops_imaginary :
    (∀ (n : Nat) (t : T6),
      IGConv_gabor_pool_max n t
        = CmplxOrReal.cplx (fun c b o h w => qmax_range n (fun g => t c b o g h w)))
    ∧ IGConv_gabor_pool_avg 2 t_avg_demo = CmplxOrReal.real (fun _ _ _ _ => 2)
    ∧ torch_mean_dim3 2 t_avg_demo 1 0 0 0 0 = 6
    ∧ t_avg_demo 1 0 0 0 0 0 ≠ t_avg_demo2 1 0 0 0 0 0
    ∧ IGConv_gabor_pool_avg 2 t_avg_demo = IGConv_gabor_pool_avg 2 t_avg_demo2 := by
  have havg : ∀ u : T6, IGConv_gabor_pool_avg 2 u
      = CmplxOrReal.real (fun b o h w => (u 0 b o 0 h w + u 0 b o 1 h w) / 2) := by
    intro u
    unfold IGConv_gabor_pool_avg torch_mean_dim3
    exact congrArg CmplxOrReal.real (by
      funext b o h w
      show (∑ g ∈ Finset.range 2, u 0 b o g h w) / ((2 : Nat) : ℚ)
        = (u 0 b o 0 h w + u 0 b o 1 h w) / 2
      rw [Finset.sum_range_succ, Finset.sum_range_one]
      norm_num)
  refine ⟨fun n t => rfl, ?_, ?_, ?_, ?_⟩
  · rw [havg]
    exact congrArg CmplxOrReal.real (by
      funext b o h w
      simp [t_avg_demo]
      norm_num)
  · unfold torch_mean_dim3 t_avg_demo
    rw [Finset.sum_range_succ, Finset.sum_range_one]
    norm_num
  · unfold t_avg_demo t_avg_demo2
    norm_num
  · rw [havg, havg]
    exact congrArg CmplxOrReal.real (by
      funext b o h w
      simp [t_avg_demo, t_avg_demo2])

/-- Witness for C2 at `input_features=1, output_features=12, no_g=4`. -/
theorem IGConvCmplx_init_divisibility_witness :
    0 < 4 ∧
    (((∃ e, IGConvCmplx.init 1 12 4 none = Except.error e) ↔ ¬ ((4:Nat) ∣ 12))
    ∧ ((4:Nat) ∣ 12 →
        IGConvCmplx.init 1 12 4 none = Except.ok ⟨1, 12 / 4, 4, none⟩)
    ∧ (∃ e, IGConvCmplx.init 1 10 4 none = Except.error e)
    ∧ IGConvCmplx.init 1 12 4 none = Except.ok ⟨1, 3, 4, none⟩) :=
  ⟨by decide, IGConvCmplx_init_divisibility 1 12 4 (by decide)⟩

/-- C7: for every element and every `eps > 0`, the square of `magnitude` is
within `eps` of `re² + im²`, and the result is nonnegative — indeed at
least `√eps`. -/
theorem magnitude_spec_bounds (re im eps : ℝ) (heps : 0 < eps) :
    |magnitude re im eps ^ 2 - (re ^ 2 + im ^ 2)| ≤ eps
    ∧ Real.sqrt eps ≤ magnitude re im eps
    ∧ 0 ≤ magnitude re im eps := by
  unfold magnitude
  have hs : (0 : ℝ) ≤ re ^ 2 + im ^ 2 := by positivity
  have hmax : (0 : ℝ) ≤ max (re ^ 2 + im ^ 2) eps := le_max_of_le_left hs
  refine ⟨?_, Real.sqrt_le_sqrt (le_max_right _ _), Real.sqrt_nonneg _⟩
  rw [Real.sq_sqrt hmax]
  rcases le_total (re ^ 2 + im ^ 2) eps with h | h
  · rw [max_eq_right h, abs_of_nonneg (by linarith)]
    linarith
  · rw [max_eq_left h, sub_self, abs_zero]
    exact heps.le

/-- Witness for C7 at `re = 3, im = 4, eps = 1`. -/
theorem magnitude_spec_bounds_witness :
    (0 : ℝ) < 1 ∧
    (|magnitude 3 4 1 ^ 2 - ((3 : ℝ) ^ 2 + (4 : ℝ) ^ 2)| ≤ 1
     ∧ Real.sqrt 1 ≤ magnitude 3 4 1
     ∧ 0 ≤ magnitude 3 4 1) :=
  ⟨by norm_num, magnitude_spec_bounds 3 4 1 (by norm_num)⟩

/-- C6: `max_mag_pool` reads both the real and the imaginary component at
one shared flat spatial index per window — the index the real pooling
primitive's index-returning mode produced on the magnitude map
(`cmplx(idxs, idxs)` duplicates it for the complex `gather`). -/
theorem max_mag_pool_shared_index (f : RMap → IdxMap) (W OW : Nat) (x : CMap)
    (b c oh ow : Nat) (hOW : 0 < OW) (how : ow < OW) :
    max_mag_pool f W OW x 0 b c oh ow
      = view_merge2 W (x 0 b c)
          (f (fun b c h w => magnitude (x 0 b c h w) (x 1 b c h w) eps_default)
            b c oh ow)
    ∧ max_mag_pool f W OW x 1 b c oh ow
      = view_merge2 W (x 1 b c)
          (f (fun b c h w => magnitude (x 0 b c h w) (x 1 b c h w) eps_default)
            b c oh ow) := by
  have h1 : (oh * OW + ow) / OW = oh := by
    rw [Nat.mul_comm, Nat.mul_add_div hOW, Nat.div_eq_of_lt how, Nat.add_zero]
  have h2 : (oh * OW + ow) % OW = ow := by
    rw [Nat.mul_comm, Nat.mul_add_mod, Nat.mod_eq_of_lt how]
  constructor <;> simp [max_mag_pool, view_split2, view_merge2, h1, h2]

/-- Witness for C6 with the constant index primitive on the zero map. -/
theorem max_mag_pool_shared_index_witness :
    0 < 1 ∧ (0 : Nat) < 1 ∧
    (max_mag_pool idx_const0 1 1 xzero 0 0 0 0 0
        = view_merge2 1 (xzero 0 0 0)
            (idx_const0
              (fun b c h w => magnitude (xzero 0 b c h w) (xzero 1 b c h w) eps_default)
              0 0 0 0)
     ∧ max_mag_pool idx_const0 1 1 xzero 1 0 0 0 0
        = view_merge2 1 (xzero 1 0 0)
            (idx_const0
              (fun b c h w => magnitude (xzero 0 b c h w) (xzero 1 b c h w) eps_default)
              0 0 0 0)) :=
  ⟨by decide, by decide,
   max_mag_pool_shared_index idx_const0 1 1 xzero 0 0 0 0 (by decide) (by decide)⟩

/-- C8: the two broadcast `torch.where` steps of `relu_cmplx_z` equal the
joint first-quadrant gate at every element: the value passes unchanged
exactly when both components are strictly positive and is zeroed entirely
otherwise. -/
theorem relu_cmplx_z_joint_gate (re im : ℚ) :
    relu_cmplx_z re im = relu_z_joint re im := by
  by_cases h1 : 0 < re <;> by_cases h2 : 0 < im <;>
    simp [relu_cmplx_z, relu_z_joint, h1, h2]

/-- C9 counterexample: on a `[2, 2, 1, 1]` real kernel the fan-in is 2 and
the Rayleigh scale passed by `'he'` mode is `1/2`, whose square is `1/4`,
not `1/fan_in = 1/2` — the scale itself equals `1/fan_in`, its square does
not. -/
theorem init_weights_scale_counterexample :
    calculate_fan_in_and_fan_out 2 2 1 1 = (2, 2)
    ∧ rayleigh_scale "he" 2 2 = some (1 / 2)
    ∧ ((1 : ℚ) / 2) ^ 2 ≠ 1 / 2 := by
  refine ⟨rfl, ?_, by norm_num⟩
  norm_num [rayleigh_scale]

/-- C9 amended: fan-in/fan-out come from the real-part kernel shape; the
Rayleigh scale is `1/fan_in` (`'he'`) or `1/(fan_in+fan_out)` (`'glorot'`)
— the variance target itself, not its square root; the phase bounds passed
to the uniform sampler are `-π, π`; cartesian storage keeps
`(mag·cos phase, mag·sin phase)`. -/
theorem init_weights_amended (out_c in_c kh kw : Nat) (mag ph : ℝ) :
    calculate_fan_in_and_fan_out out_c in_c kh kw
      = (in_c * (kh * kw), out_c * (kh * kw))
    ∧ rayleigh_scale "he" (in_c * (kh * kw)) (out_c * (kh * kw))
      = some (1 / ((in_c * (kh * kw) : Nat) : ℚ))
    ∧ rayleigh_scale "glorot" (in_c * (kh * kw)) (out_c * (kh * kw))
      = some (1 / (((in_c * (kh * kw) : Nat) : ℚ) + ((out_c * (kh * kw) : Nat) : ℚ)))
    ∧ init_weights_store false mag ph = (mag * Real.cos ph, mag * Real.sin ph)
    ∧ phase_low = -Real.pi ∧ phase_high = Real.pi := by
  exact ⟨rfl, rfl, rfl, rfl, rfl, rfl⟩

/-- C10: `pool_cmplx` dispatches to the magnitude-consistent `max_mag_pool`
only on the exact operator `'mag'`; every other operator applies the real
pooling primitive (max, or avg for `'avg'`/`'average'`) to the real and
imaginary components independently; `MaxPoolCmplx` with `maxmag=True` (its
default) passes `'maxmag'`, which is not `'mag'`, so its forward is the
componentwise max path and never the magnitude-consistent one. -/
theorem pool_cmplx_dispatch (f : RMap → IdxMap) (W OW k : Nat) (x : CMap) :
    (∀ op : Option String, op ≠ some "mag" → op ≠ some "avg" →
      op ≠ some "average" →
      pool_cmplx f W OW x k op = fun s b c => window_max k (x s b c))
    ∧ pool_cmplx f W OW x k (some "avg") = (fun s b c => window_avg k (x s b c))
    ∧ pool_cmplx f W OW x k (some "average")
      = (fun s b c => window_avg k (x s b c))
    ∧ pool_cmplx f W OW x k (some "mag") = max_mag_pool f W OW x
    ∧ MaxPoolCmplx_operator true = some "maxmag"
    ∧ MaxPoolCmplx_forward f W OW true k x
      = (fun s b c => window_max k (x s b c)) := by
  refine ⟨?_, ?_, ?_, ?_, rfl, ?_⟩
  · intro op h1 h2 h3
    simp [pool_cmplx, h1, h2, h3]
  · simp [pool_cmplx]
  · simp [pool_cmplx]
  · simp [pool_cmplx]
  · simp [MaxPoolCmplx_forward, MaxPoolCmplx_operator, pool_cmplx]

/-- Witness for C10 at the `'maxmag'` operator `MaxPoolCmplx` passes. -/
theorem pool_cmplx_dispatch_witness :
    ((some "maxmag" : Option String) ≠ some "mag"
     ∧ (some "maxmag" : Option String) ≠ some "avg"
     ∧ (some "maxmag" : Option String) ≠ some "average")
    ∧ pool_cmplx idx_const0 1 1 xzero 1 (some "maxmag")
      = fun s b c => window_max 1 (xzero s b c) :=
  ⟨⟨by decide, by decide, by decide⟩,
   (pool_cmplx_dispatch idx_const0 1 1 1 xzero).1 (some "maxmag")
     (by decide) (by decide) (by decide)⟩

end IGCN
